import Mathlib

/-!
# go-effects: the `goeffects` command line front end

A shallow embedding of `cmd/goeffects/main.go`.

* `main` is the body of Go `main` after `flag.Parse()` has returned: its inputs
  are the value of the `-effect` flag and the list of positional arguments
  (`flag.Args()`).  `goeffects` is the whole of Go `main`: `flag.Parse()` on the
  command line arguments, then that body.
* Console output, calls into the `effects` package and process exit are
  recorded explicitly: a run yields the ordered list of events it performed
  and either a returned value or the status passed to `os.Exit`.
* The `effects` package (image loading, the effect implementations, saving) and
  `strconv.ParseFloat` are external to this file of the program; they are taken
  as parameters (`Lib`).  The value returned by a constructor such as
  `effects.NewOilPainting(filterSize, levels)` is represented by the
  constructor call itself (`Effect.oil filterSize levels`).
-/

namespace GoEffects

/-! ## Results of a run -/

/-- How a Go function call ends: it returns a value, or the process is
terminated by `os.Exit(status)`. -/
inductive Outcome (α : Type) where
  | returned (value : α)
  | exited (status : Nat)
deriving DecidableEq, Repr

/-- A run: the events performed, in order, and how the call ended. -/
structure Run (ε α : Type) where
  trace : List ε
  result : Outcome α
deriving DecidableEq, Repr

/-- Return a value without performing any event. -/
def Run.ret {ε α : Type} (a : α) : Run ε α := ⟨[], .returned a⟩

/-- Sequencing: the second computation runs only if the first one returned;
an `os.Exit` stops everything after it. -/
def Run.andThen {ε α β : Type} (x : Run ε α) (f : α → Run ε β) : Run ε β :=
  match x.result with
  | .returned a => ⟨x.trace ++ (f a).trace, (f a).result⟩
  | .exited n => ⟨x.trace, .exited n⟩

instance {ε : Type} : Monad (Run ε) where
  pure := Run.ret
  bind := Run.andThen

/-- Perform one event. -/
def emit {ε : Type} (e : ε) : Run ε Unit := ⟨[e], .returned ()⟩

/-- The call `os.Exit(status)`: nothing after it runs. -/
def osExit {ε α : Type} (status : Nat) : Run ε α := ⟨[], .exited status⟩

/-! ## `strconv` -/

/-- The value of an ASCII decimal digit, `none` for any other character. -/
def digitVal (c : Char) : Option Nat :=
  if 48 ≤ c.toNat ∧ c.toNat ≤ 57 then some (c.toNat - 48) else none

/-- Read a sequence of decimal digits, most significant first, onto the
accumulator `n`; `none` if some character is not a digit. -/
def parseDigits : List Char → Nat → Option Nat
  | [], n => some n
  | c :: cs, n =>
    match digitVal c with
    | some d => parseDigits cs (n * 10 + d)
    | none => none

/-- Unsigned magnitude of a digit string: at least one digit is required. -/
def parseMagnitude (cs : List Char) : Option Nat :=
  match cs with
  | [] => none
  | _ :: _ => parseDigits cs 0

/-- `strconv.Atoi` for a 64-bit `int`: an optional sign `+` or `-`, then one
or more decimal digits, and the value must lie in `[-2^63, 2^63 - 1]`.
`none` stands for a non-nil error (syntax or range). -/
def atoi (s : String) : Option Int :=
  match s.toList with
  | [] => none
  | c :: cs =>
    if c = Char.ofNat 45 then
      match parseMagnitude cs with
      | some m => if m ≤ 2 ^ 63 then some (-(m : Int)) else none
      | none => none
    else if c = Char.ofNat 43 then
      match parseMagnitude cs with
      | some m => if m < 2 ^ 63 then some (m : Int) else none
      | none => none
    else
      match parseMagnitude (c :: cs) with
      | some m => if m < 2 ^ 63 then some (m : Int) else none
      | none => none

/-- `strconv.ParseBool`: accepts exactly 1, t, T, TRUE, true, True and
0, f, F, FALSE, false, False; `none` stands for a non-nil error. -/
def parseBool (s : String) : Option Bool :=
  if s = "1" ∨ s = "t" ∨ s = "T" ∨ s = "TRUE" ∨ s = "true" ∨ s = "True" then some true
  else if s = "0" ∨ s = "f" ∨ s = "F" ∨ s = "FALSE" ∨ s = "false" ∨ s = "False" then some false
  else none

/-! ## `flag.Parse` -/

/-- How `flag.Parse()` ends on a command line, for a flag set whose only flag
is the string flag `effect`: the flag value and the positional arguments; or a
request for help (`-h`, `-help`); or an error with its message. -/
inductive FlagOutcome where
  | parsed (effect : String) (args : List String)
  | help
  | failed (msg : String)
deriving DecidableEq, Repr

/-- Cut a flag name at its first `=`: the part before it and, when there is
one, the value after it. -/
def splitValue : List Char → List Char × Option (List Char)
  | [] => ([], none)
  | c :: cs =>
    if c = Char.ofNat 61 then ([], some cs)
    else ((c :: (splitValue cs).1), (splitValue cs).2)

/-- The loop of `flag.Parse()` over the command line arguments, `effect` being
the current value of the flag.  An argument shorter than two characters or not
starting with `-` ends the flags, and so does `--`; one or two leading dashes
introduce a flag name, which may not be empty nor start with `-` or `=`; the
value of `-effect` follows an `=` (not in first place) or is the next
argument; `-h` and `-help` ask for help; any other name is an error. -/
def flagParse : List String → String → FlagOutcome
  | [], effect => .parsed effect []
  | s :: rest, effect =>
    match s.toList with
    | c0 :: c1 :: cs =>
      if c0 ≠ Char.ofNat 45 then .parsed effect (s :: rest)
      else if c1 = Char.ofNat 45 ∧ cs = [] then .parsed effect rest
      else
        match (if c1 = Char.ofNat 45 then cs else c1 :: cs) with
        | [] => .failed ("bad flag syntax: " ++ s)
        | n0 :: ns =>
          if n0 = Char.ofNat 45 ∨ n0 = Char.ofNat 61 then .failed ("bad flag syntax: " ++ s)
          else if String.mk (n0 :: (splitValue ns).1) = "effect" then
            match (splitValue ns).2 with
            | some value => flagParse rest (String.mk value)
            | none =>
              match rest with
              | value :: rest2 => flagParse rest2 value
              | [] => .failed "flag needs an argument: -effect"
          else if String.mk (n0 :: (splitValue ns).1) = "help" ∨
              String.mk (n0 :: (splitValue ns).1) = "h" then .help
          else .failed ("flag provided but not defined: -" ++ String.mk (n0 :: (splitValue ns).1))
    | _ => .parsed effect (s :: rest)

/-! ## The `effects` package as seen from the command line -/

/-- The struct `effects.SaveOpts`, with the one field `main` sets. -/
structure SaveOpts where
  ClipToBounds : Bool
deriving DecidableEq, Repr

/-- The struct `effects.CTOpts`, with the fields `runCartoon` sets. -/
structure CTOpts where
  BlurKernelSize : Int
  EdgeThreshold : Int
  OilFilterSize : Int
  OilLevels : Int
  DebugPath : String
deriving DecidableEq, Repr

/-- An effect object, represented by the constructor call that built it:
`gaussian k s` is the value of `effects.NewGaussian(k, s)`, and so on.
`F` is the type of `float64` values. -/
inductive Effect (F : Type) where
  | gaussian (kernelSize : Int) (sigma : F)
  | sobel (threshold : Int) (invert : Bool)
  | pencil (blurFactor : Int)
  | brightness (offset : Int)
  | oil (filterSize : Int) (levels : Int)
  | cartoon (opts : CTOpts)
  | pixelate (blockSize : Int)
deriving DecidableEq, Repr

/-- An operand handed to `fmt.Println`. -/
inductive Operand where
  | text (s : String)
  | parseError (input : String)
  | libError (msg : String)
deriving DecidableEq, Repr

/-- What a run does that is visible outside `main.go`.  `I` is the type of
`*effects.Image` values. -/
inductive Event (F I : Type) where
  | println (operands : List Operand)
  | printDefaults
  | loadImage (path : String)
  | construct (e : Effect F)
  | apply (e : Effect F) (img : I) (channel : Int)
  | save (img : I) (path : String) (opts : SaveOpts)
  | flagError (msg : String)
  | flagUsage
deriving DecidableEq, Repr

/-- The functions `main.go` calls and does not define.  An `Except.error`
(for `Save`, a `some`) is a non-nil Go error with the given text. -/
structure Lib (F I : Type) where
  parseFloat : String → Option F
  LoadImage : String → Except String I
  Apply : Effect F → I → Int → Except String I
  Save : I → String → SaveOpts → Option String
  nilImage : I

section Program

variable {F I : Type}

/-- The call `fmt.Println(operands...)`. -/
def println (operands : List Operand) : Run (Event F I) Unit :=
  emit (.println operands)

/-- The call `effects.LoadImage(path)`. -/
def callLoadImage (lib : Lib F I) (path : String) :
    Run (Event F I) (Except String I) :=
  ⟨[.loadImage path], .returned (lib.LoadImage path)⟩

/-- A constructor call `effects.NewX(...)`. -/
def callNew (e : Effect F) : Run (Event F I) (Effect F) :=
  ⟨[.construct e], .returned e⟩

/-- The call `e.Apply(img, channel)`. -/
def callApply (lib : Lib F I) (e : Effect F) (img : I) (channel : Int) :
    Run (Event F I) (Except String I) :=
  ⟨[.apply e img channel], .returned (lib.Apply e img channel)⟩

/-- The call `img.Save(path, opts)`. -/
def callSave (lib : Lib F I) (img : I) (path : String) (opts : SaveOpts) :
    Run (Event F I) (Option String) :=
  ⟨[.save img path opts], .returned (lib.Save img path opts)⟩

/-- The call `flag.Arg(i)`: the i-th positional argument, the empty string
when there is none. -/
def flagArg (args : List String) (i : Nat) : String := args.getD i ""

/-- Go `runGaussian`. -/
def runGaussian (lib : Lib F I) (args : List String) (img : I) : Run (Event F I) I := do
  let kernelSize ← match atoi (flagArg args 2) with
    | some v => pure v
    | none => do
      println [.text "invalid kernelSize value"]
      osExit 1
  let sigma ← match lib.parseFloat (flagArg args 3) with
    | some v => pure v
    | none => do
      println [.text "invalid sigma value"]
      osExit 1
  let gaussian ← callNew (.gaussian kernelSize sigma)
  match ← callApply lib gaussian img 0 with
  | .error err => do
    println [.text "Failed to apply effect:", .libError err]
    osExit 1
  | .ok outImg => pure outImg

/-- Go `runSobel`. -/
def runSobel (lib : Lib F I) (args : List String) (img : I) : Run (Event F I) I := do
  let threshold ← match atoi (flagArg args 2) with
    | some v => pure v
    | none => do
      println [.text "invalid threshold value"]
      osExit 1
  let invert ← match parseBool (flagArg args 3) with
    | some v => pure v
    | none => do
      println [.text "invalid invert value"]
      osExit 1
  let sobel ← callNew (.sobel threshold invert)
  match ← callApply lib sobel img 0 with
  | .error err => do
    println [.text "Failed to apply effect:", .libError err]
    osExit 1
  | .ok outImg => pure outImg

/-- Go `runPencil`. -/
def runPencil (lib : Lib F I) (args : List String) (img : I) : Run (Event F I) I := do
  let blurFactor ← match atoi (flagArg args 2) with
    | some v => pure v
    | none => do
      println [.text "Invalid blurFactor value:", .parseError (flagArg args 2)]
      osExit 1
  let pencil ← callNew (.pencil blurFactor)
  match ← callApply lib pencil img 0 with
  | .error err => do
    println [.text "Failed to apply effect:", .libError err]
    osExit 1
  | .ok outImg => pure outImg

/-- Go `runBrightness`. -/
def runBrightness (lib : Lib F I) (args : List String) (img : I) : Run (Event F I) I := do
  let offset ← match atoi (flagArg args 2) with
    | some v => pure v
    | none => do
      println [.text "Invalid offset value:", .parseError (flagArg args 2)]
      osExit 1
  let brightness ← callNew (.brightness offset)
  match ← callApply lib brightness img 0 with
  | .error err => do
    println [.text "Failed to apply effect:", .libError err]
    osExit 1
  | .ok outImg => pure outImg

/-- Go `runOil`. -/
def runOil (lib : Lib F I) (args : List String) (img : I) : Run (Event F I) I := do
  let filterSize ← match atoi (flagArg args 2) with
    | some v => pure v
    | none => do
      println [.text "Invalid filterSize value:", .parseError (flagArg args 2)]
      osExit 1
  if filterSize ≤ 3 then
    println [.text "FilterSize must be at least 3"]
    osExit 1
  let levels ← match atoi (flagArg args 3) with
    | some v => pure v
    | none => do
      println [.text "Invalid levels value:", .parseError (flagArg args 3)]
      osExit 1
  if levels < 1 then
    println [.text "Levels must be at least 1"]
    osExit 1
  let oil ← callNew (.oil filterSize levels)
  match ← callApply lib oil img 0 with
  | .error err => do
    println [.text "Failed to apply effect:", .libError err]
    osExit 1
  | .ok outImg => pure outImg

/-- Go `runCartoon`. -/
def runCartoon (lib : Lib F I) (args : List String) (img : I) : Run (Event F I) I := do
  let blurStrength ← match atoi (flagArg args 2) with
    | some v => pure v
    | none => do
      println [.text "Invalid blurStrength value"]
      osExit 1
  let edgeThreshold ← match atoi (flagArg args 3) with
    | some v => pure v
    | none => do
      println [.text "Invalid edgeThreshold value"]
      osExit 1
  let oilFilterSize ← match atoi (flagArg args 4) with
    | some v => pure v
    | none => do
      println [.text "Invalid oilFilterSize value"]
      osExit 1
  let oilLevels ← match atoi (flagArg args 5) with
    | some v => pure v
    | none => do
      println [.text "Invalid oilLevels value"]
      osExit 1
  let opts : CTOpts :=
    { BlurKernelSize := blurStrength
      EdgeThreshold := edgeThreshold
      OilFilterSize := oilFilterSize
      OilLevels := oilLevels
      DebugPath := "" }
  let cartoon ← callNew (.cartoon opts)
  match ← callApply lib cartoon img 0 with
  | .error err => do
    println [.text "Failed to apply effect:", .libError err]
    osExit 1
  | .ok outImg => pure outImg

/-- Go `runPixelate`. -/
def runPixelate (lib : Lib F I) (args : List String) (img : I) : Run (Event F I) I := do
  let blockSize ← match atoi (flagArg args 2) with
    | some v => pure v
    | none => do
      println [.text "Invalid blockSize value"]
      osExit 1
  let pixelate ← callNew (.pixelate blockSize)
  match ← callApply lib pixelate img 0 with
  | .error err => do
    println [.text "Failed to apply effect:", .libError err]
    osExit 1
  | .ok outImg => pure outImg

/-- Go `runEffect`: dispatch on the effect name; `nil` for any other name. -/
def runEffect (lib : Lib F I) (args : List String) (img : I) (effect : String) :
    Run (Event F I) I :=
  if effect = "brightness" then runBrightness lib args img
  else if effect = "cartoon" then runCartoon lib args img
  else if effect = "gaussian" then runGaussian lib args img
  else if effect = "oil" then runOil lib args img
  else if effect = "pencil" then runPencil lib args img
  else if effect = "pixelate" then runPixelate lib args img
  else if effect = "sobel" then runSobel lib args img
  else pure lib.nilImage

/-- Go `validateFlags`: check the effect name and the number of positional
arguments. -/
def validateFlags (effect : String) (args : List String) : Run (Event F I) Unit :=
  if effect = "brightness" then do
    if args.length ≠ 3 then
      println [.text "The brightness effect requires 3 args, input path, output path offset"]
      println [.text "Sample usage: goeffects -effect=brightness mypic.jpg mypic-lighten.jpg 200"]
      emit .printDefaults
      osExit 1
  else if effect = "cartoon" then do
    if args.length ≠ 6 then
      println [.text "The cartoon effect requires 6 args, input path, output path, blurStrength, edgeThreshold, oilBoldness, oilLevels"]
      println [.text "Sample usage: goeffects -effect=cartoon mypic.jpg mypic-cartoon.jpg 21 40 15 15"]
      emit .printDefaults
      osExit 1
  else if effect = "gaussian" then do
    if args.length ≠ 4 then
      println [.text "The gaussian effect requires 4 args, input path, output path, kernelSize, sigma"]
      println [.text "Sample usage: goeffects -effect=gaussian mypic.jpg mypic-gaussian.jpg 9 1"]
      emit .printDefaults
      osExit 1
  else if effect = "oil" then do
    if args.length ≠ 4 then
      println [.text "The oil effect requires 4 args, input path, output path, filterSize, levels"]
      println [.text "Sample usage: goeffects -effect=oil mypic.jpg mypic-oil.jpg 5 30"]
      emit .printDefaults
      osExit 1
  else if effect = "pencil" then do
    if args.length ≠ 3 then
      println [.text "The pencil effect requires 3 args, input path, output path blurFactor"]
      println [.text "Sample usage: goeffects -effect=pencil mypic.jpg mypic-pencil.jpg"]
      emit .printDefaults
      osExit 1
  else if effect = "pixelate" then do
    if args.length ≠ 3 then
      println [.text "The pixelate effect requires 3 args, input path, output path, block size"]
      println [.text "Sample usage: goeffects -effect=pixelate mypic.jpg mypic-pixelate.jpg 12"]
      emit .printDefaults
      osExit 1
  else if effect = "sobel" then do
    if args.length ≠ 4 then
      println [.text "The sobel effect requires 4 args, input path, output path, threshold invert"]
      println [.text "Sample usage: goeffects -effect=sobel mypic.jpg mypic-sobel.jpg 100 false"]
      emit .printDefaults
      osExit 1
  else if effect = "" then do
    println [.text "The effect option is required"]
    emit .printDefaults
    osExit 1
  else do
    println [.text "Unknown effect option value"]
    emit .printDefaults
    osExit 1

/-- The usage text `main` registers for the `-effect` flag. -/
def effectFlagUsage : String :=
  "The name of the effect to apply. Values are 'oil|sobel|gaussian|cartoon|pixelate'"

/-- Go `main`, from the point where `flag.Parse()` has returned: `effect` is
the value of the `-effect` flag, `args` the positional arguments. -/
def main (lib : Lib F I) (effect : String) (args : List String) : Run (Event F I) Unit := do
  validateFlags effect args
  let inPath := flagArg args 0
  let outPath := flagArg args 1
  let img ← match ← callLoadImage lib inPath with
    | .error err => do
      println [.libError err]
      osExit 1
    | .ok img => pure img
  let outImg ← runEffect lib args img effect
  match ← callSave lib outImg outPath { ClipToBounds := true } with
  | some err => do
    println [.text "Failed to save modified image:", .libError err]
    osExit 1
  | none => pure ()

/-- Go `main` from process start, on the command line arguments
(`os.Args[1:]`): `flag.Parse()` with the default value of `-effect`, the empty
string, then the body of `main`.  On a flag error `flag.Parse()` reports it,
prints the usage and exits with status 2; on `-h` or `-help` it prints the
usage and exits with status 0. -/
def goeffects (lib : Lib F I) (argv : List String) : Run (Event F I) Unit :=
  match flagParse argv "" with
  | .parsed effect args => main lib effect args
  | .help => ⟨[.flagUsage], .exited 0⟩
  | .failed msg => ⟨[.flagError msg, .flagUsage], .exited 2⟩

end Program

/-! ## Vocabulary for stating properties of runs -/

section Vocabulary

variable {F I : Type}

/-- The event is a call of `Save`. -/
def Event.isSave : Event F I → Bool
  | .save _ _ _ => true
  | _ => false

/-- The event is a call of some effect's `Apply`. -/
def Event.isApply : Event F I → Bool
  | .apply _ _ _ => true
  | _ => false

/-- The event is a call of an effect constructor. -/
def Event.isConstruct : Event F I → Bool
  | .construct _ => true
  | _ => false

/-- The event is a call of `fmt.Println`. -/
def Event.isPrintln : Event F I → Bool
  | .println _ => true
  | _ => false

/-- The event is a call into the `effects` package. -/
def Event.isLibCall : Event F I → Bool
  | .println _ => false
  | .printDefaults => false
  | .flagError _ => false
  | .flagUsage => false
  | _ => true

/-- The calls into the `effects` package made by a run, in order. -/
def libCalls (t : List (Event F I)) : List (Event F I) := t.filter Event.isLibCall

/-- The name under which the `-effect` flag selects an effect. -/
def Effect.name : Effect F → String
  | .gaussian _ _ => "gaussian"
  | .sobel _ _ => "sobel"
  | .pencil _ => "pencil"
  | .brightness _ => "brightness"
  | .oil _ _ => "oil"
  | .cartoon _ => "cartoon"
  | .pixelate _ => "pixelate"

end Vocabulary

/-- The seven effect names with the number of positional arguments each usage
message states. -/
def usageArgCounts : List (String × Nat) :=
  [("brightness", 3), ("cartoon", 6), ("gaussian", 4), ("oil", 4),
   ("pencil", 3), ("pixelate", 3), ("sobel", 4)]

section Conditions

variable {F I : Type}

/-- Every parameter of the effect is the value parsed from the positional
argument its run function reads for it (and `DebugPath` is empty). -/
def Effect.parsedFrom (lib : Lib F I) (args : List String) : Effect F → Prop
  | .gaussian kernelSize sigma =>
    atoi (flagArg args 2) = some kernelSize ∧ lib.parseFloat (flagArg args 3) = some sigma
  | .sobel threshold invert =>
    atoi (flagArg args 2) = some threshold ∧ parseBool (flagArg args 3) = some invert
  | .pencil blurFactor => atoi (flagArg args 2) = some blurFactor
  | .brightness offset => atoi (flagArg args 2) = some offset
  | .oil filterSize levels =>
    atoi (flagArg args 2) = some filterSize ∧ atoi (flagArg args 3) = some levels
  | .cartoon opts =>
    atoi (flagArg args 2) = some opts.BlurKernelSize ∧
    atoi (flagArg args 3) = some opts.EdgeThreshold ∧
    atoi (flagArg args 4) = some opts.OilFilterSize ∧
    atoi (flagArg args 5) = some opts.OilLevels ∧
    opts.DebugPath = ""
  | .pixelate blockSize => atoi (flagArg args 2) = some blockSize

instance [DecidableEq F] (lib : Lib F I) (args : List String) (e : Effect F) :
    Decidable (e.parsedFrom lib args) := by
  cases e <;> unfold Effect.parsedFrom <;> infer_instance

/-- The range checks `runOil` makes: they concern the oil effect only. -/
def Effect.oilChecked : Effect F → Prop
  | .oil filterSize levels => 3 < filterSize ∧ 1 ≤ levels
  | _ => True

instance (e : Effect F) : Decidable e.oilChecked := by
  cases e <;> unfold Effect.oilChecked <;> infer_instance

/-- The condition under which `main` gets as far as `Save`: the flags pass
validation, the image loads, the parameters of the selected effect parse (and
pass the checks of `runOil`), and `Apply` returns an image. -/
def reachesSave (lib : Lib F I) (effect : String) (args : List String) : Prop :=
  (validateFlags (F := F) (I := I) effect args).result = .returned () ∧
    ∃ img e out, lib.LoadImage (flagArg args 0) = .ok img ∧ e.name = effect ∧
      e.parsedFrom lib args ∧ e.oilChecked ∧ lib.Apply e img 0 = .ok out

/-- The three ways a run function for the effect called `name` can end.
Either its parameters parse (and pass the checks of `runOil`), the effect is
constructed and applied once to `img`, and the result is returned; or the
same happens but `Apply` fails, a message is printed and the process exits
with status 1; or no effect with that name can be built from the arguments,
a message is printed and the process exits with status 1 without any call
into the `effects` package. -/
def RunShape (lib : Lib F I) (args : List String) (img : I) (name : String)
    (r : Run (Event F I) I) : Prop :=
  (∃ e out, e.name = name ∧ e.parsedFrom lib args ∧ e.oilChecked ∧
      lib.Apply e img 0 = .ok out ∧
      r = ⟨[.construct e, .apply e img 0], .returned out⟩) ∨
  (∃ e err, e.name = name ∧ e.parsedFrom lib args ∧ e.oilChecked ∧
      lib.Apply e img 0 = .error err ∧
      r = ⟨[.construct e, .apply e img 0,
            .println [.text "Failed to apply effect:", .libError err]], .exited 1⟩) ∨
  ((¬ ∃ e : Effect F, e.name = name ∧ e.parsedFrom lib args ∧ e.oilChecked) ∧
      r.result = .exited 1 ∧ r.trace.any Event.isPrintln = true ∧ libCalls r.trace = [])

end Conditions

/-- Split a list of characters at every occurrence of `sep`. -/
def splitOnChar (sep : Char) : List Char → List (List Char)
  | [] => [[]]
  | c :: cs =>
    if c = sep then [] :: splitOnChar sep cs
    else
      match splitOnChar sep cs with
      | [] => [[c]]
      | w :: ws => (c :: w) :: ws

/-- The values a usage text lists between its pair of single quotes,
separated by `|`. -/
def listedValues (usage : String) : List String :=
  match splitOnChar (Char.ofNat 39) usage.toList with
  | [_, quoted, _] => (splitOnChar (Char.ofNat 124) quoted).map String.mk
  | _ => []

/-- Read a printed "Sample usage" line as a command line: after the two
words of the label and the program name comes the `-effect=` flag, then the
positional arguments.  Gives the flag value and the positional arguments. -/
def sampleInvocation (line : String) : Option (String × List String) :=
  match (splitOnChar (Char.ofNat 32) line.toList).map String.mk with
  | "Sample" :: "usage:" :: "goeffects" :: flag :: positional =>
    match splitOnChar (Char.ofNat 61) flag.toList with
    | [name, value] =>
      if String.mk name = "-effect" then some (String.mk value, positional) else none
    | _ => none
  | _ => none

/-- The text of the first line a run prints, when that line is a single
piece of text. -/
def firstLine {F I : Type} : List (Event F I) → Option String
  | .println [.text line] :: _ => some line
  | _ => none

/-- The number of arguments a usage message of the form
"The NAME effect requires N args, ..." states. -/
def statedArgCount (line : String) : Option Nat :=
  match (splitOnChar (Char.ofNat 32) line.toList).map String.mk with
  | "The" :: _ :: "effect" :: "requires" :: count :: _ => parseMagnitude count.toList
  | _ => none

/-- Drop the blanks at the front of a list of characters. -/
def dropBlanks : List Char → List Char
  | [] => []
  | c :: cs => if c = Char.ofNat 32 then dropBlanks cs else c :: cs

/-- The argument names a usage message lists: its comma-separated items after
the first, without their leading blanks. -/
def usageArgNames (line : String) : List String :=
  ((splitOnChar (Char.ofNat 44) line.toList).drop 1).map fun item =>
    String.mk (dropBlanks item)

/-- A stand-in for the `effects` package with integers for images and for
`float64`: every path but the empty one loads (as the length of the path),
`Apply` fails on image 0 and otherwise adds one, `Save` fails on the empty
path. -/
def sampleLib : Lib Int Nat where
  parseFloat := atoi
  LoadImage := fun path => if path = "" then .error "no such file" else .ok path.length
  Apply := fun _ img _ => if img = 0 then .error "empty image" else .ok (img + 1)
  Save := fun _ path _ => if path = "" then some "cannot create file" else none
  nilImage := 0

/-! ## Shapes of runs -/

section Lemmas

variable {F I : Type}

/-- `validateFlags` either returns silently, for the seven names with their
argument counts, or prints and exits with status 1 without touching the
`effects` package. -/
theorem validateFlags_cases (effect : String) (args : List String) :
    ((effect, args.length) ∈ usageArgCounts ∧
      validateFlags (F := F) (I := I) effect args = ⟨[], .returned ()⟩) ∨
    ((effect, args.length) ∉ usageArgCounts ∧
      (validateFlags (F := F) (I := I) effect args).result = .exited 1 ∧
      (validateFlags (F := F) (I := I) effect args).trace.any Event.isPrintln = true ∧
      libCalls (validateFlags (F := F) (I := I) effect args).trace = []) := by
  unfold validateFlags
  simp only [usageArgCounts, bind, pure, Run.andThen, Run.ret, println, emit, osExit]
  split_ifs <;> subst_vars <;> simp_all [libCalls, Event.isLibCall, Event.isPrintln]


/-- The common tail of the run functions: construct, apply, and return the
result or report the failure. -/
theorem applied_shape (lib : Lib F I) (args : List String) (img : I) (e : Effect F)
    (hp : e.parsedFrom lib args) (hc : e.oilChecked) :
    RunShape lib args img e.name
      (match lib.Apply e img 0 with
        | .error err =>
          ⟨[.construct e, .apply e img 0,
            .println [.text "Failed to apply effect:", .libError err]], .exited 1⟩
        | .ok outImg => ⟨[.construct e, .apply e img 0], .returned outImg⟩) := by
  cases h : lib.Apply e img 0 with
  | error err => exact Or.inr (Or.inl ⟨e, err, rfl, hp, hc, h, rfl⟩)
  | ok out => exact Or.inl ⟨e, out, rfl, hp, hc, h, rfl⟩

/-- The shape of `runPencil`. -/
theorem runPencil_shape (lib : Lib F I) (args : List String) (img : I) :
    RunShape lib args img "pencil" (runPencil lib args img) := by
  cases h2 : atoi (flagArg args 2) with
  | none =>
    refine Or.inr (Or.inr ⟨?_, ?_⟩)
    · rintro ⟨e, hn, hp, hc⟩
      cases e <;> simp_all [Effect.name, Effect.parsedFrom, Effect.oilChecked]
    · simp [runPencil, h2, bind, pure, Run.andThen, Run.ret, println, emit, osExit, libCalls,
        Event.isPrintln, Event.isLibCall, callNew, callApply]
  | some a =>
    have key := applied_shape lib args img (.pencil a) h2 trivial
    simp only [Effect.name] at key
    convert key using 1
    simp only [runPencil, h2, bind, pure, Run.andThen, Run.ret, println, emit, osExit, libCalls,
        Event.isPrintln, Event.isLibCall, callNew, callApply]
    cases lib.Apply (.pencil a) img 0 <;> simp

/-- The shape of `runBrightness`. -/
theorem runBrightness_shape (lib : Lib F I) (args : List String) (img : I) :
    RunShape lib args img "brightness" (runBrightness lib args img) := by
  cases h2 : atoi (flagArg args 2) with
  | none =>
    refine Or.inr (Or.inr ⟨?_, ?_⟩)
    · rintro ⟨e, hn, hp, hc⟩
      cases e <;> simp_all [Effect.name, Effect.parsedFrom, Effect.oilChecked]
    · simp [runBrightness, h2, bind, pure, Run.andThen, Run.ret, println, emit, osExit, libCalls,
        Event.isPrintln, Event.isLibCall, callNew, callApply]
  | some a =>
    have key := applied_shape lib args img (.brightness a) h2 trivial
    simp only [Effect.name] at key
    convert key using 1
    simp only [runBrightness, h2, bind, pure, Run.andThen, Run.ret, println, emit, osExit, libCalls,
        Event.isPrintln, Event.isLibCall, callNew, callApply]
    cases lib.Apply (.brightness a) img 0 <;> simp

/-- The shape of `runPixelate`. -/
theorem runPixelate_shape (lib : Lib F I) (args : List String) (img : I) :
    RunShape lib args img "pixelate" (runPixelate lib args img) := by
  cases h2 : atoi (flagArg args 2) with
  | none =>
    refine Or.inr (Or.inr ⟨?_, ?_⟩)
    · rintro ⟨e, hn, hp, hc⟩
      cases e <;> simp_all [Effect.name, Effect.parsedFrom, Effect.oilChecked]
    · simp [runPixelate, h2, bind, pure, Run.andThen, Run.ret, println, emit, osExit, libCalls,
        Event.isPrintln, Event.isLibCall, callNew, callApply]
  | some a =>
    have key := applied_shape lib args img (.pixelate a) h2 trivial
    simp only [Effect.name] at key
    convert key using 1
    simp only [runPixelate, h2, bind, pure, Run.andThen, Run.ret, println, emit, osExit, libCalls,
        Event.isPrintln, Event.isLibCall, callNew, callApply]
    cases lib.Apply (.pixelate a) img 0 <;> simp

/-- The shape of `runGaussian`. -/
theorem runGaussian_shape (lib : Lib F I) (args : List String) (img : I) :
    RunShape lib args img "gaussian" (runGaussian lib args img) := by
  cases h2 : atoi (flagArg args 2) with
  | none =>
    refine Or.inr (Or.inr ⟨?_, ?_⟩)
    · rintro ⟨e, hn, hp, hc⟩
      cases e <;> simp_all [Effect.name, Effect.parsedFrom, Effect.oilChecked]
    · simp [runGaussian, h2, bind, pure, Run.andThen, Run.ret, println, emit, osExit, libCalls,
        Event.isPrintln, Event.isLibCall, callNew, callApply]
  | some a =>
    cases h3 : lib.parseFloat (flagArg args 3) with
    | none =>
      refine Or.inr (Or.inr ⟨?_, ?_⟩)
      · rintro ⟨e, hn, hp, hc⟩
        cases e <;> simp_all [Effect.name, Effect.parsedFrom, Effect.oilChecked]
      · simp [runGaussian, h2, h3, bind, pure, Run.andThen, Run.ret, println, emit, osExit, libCalls,
          Event.isPrintln, Event.isLibCall, callNew, callApply]
    | some b =>
      have key := applied_shape lib args img (.gaussian a b) ⟨h2, h3⟩ trivial
      simp only [Effect.name] at key
      convert key using 1
      simp only [runGaussian, h2, h3, bind, pure, Run.andThen, Run.ret, println, emit, osExit, libCalls,
          Event.isPrintln, Event.isLibCall, callNew, callApply]
      cases lib.Apply (.gaussian a b) img 0 <;> simp

/-- The shape of `runSobel`. -/
theorem runSobel_shape (lib : Lib F I) (args : List String) (img : I) :
    RunShape lib args img "sobel" (runSobel lib args img) := by
  cases h2 : atoi (flagArg args 2) with
  | none =>
    refine Or.inr (Or.inr ⟨?_, ?_⟩)
    · rintro ⟨e, hn, hp, hc⟩
      cases e <;> simp_all [Effect.name, Effect.parsedFrom, Effect.oilChecked]
    · simp [runSobel, h2, bind, pure, Run.andThen, Run.ret, println, emit, osExit, libCalls,
        Event.isPrintln, Event.isLibCall, callNew, callApply]
  | some a =>
    cases h3 : parseBool (flagArg args 3) with
    | none =>
      refine Or.inr (Or.inr ⟨?_, ?_⟩)
      · rintro ⟨e, hn, hp, hc⟩
        cases e <;> simp_all [Effect.name, Effect.parsedFrom, Effect.oilChecked]
      · simp [runSobel, h2, h3, bind, pure, Run.andThen, Run.ret, println, emit, osExit, libCalls,
          Event.isPrintln, Event.isLibCall, callNew, callApply]
    | some b =>
      have key := applied_shape lib args img (.sobel a b) ⟨h2, h3⟩ trivial
      simp only [Effect.name] at key
      convert key using 1
      simp only [runSobel, h2, h3, bind, pure, Run.andThen, Run.ret, println, emit, osExit, libCalls,
          Event.isPrintln, Event.isLibCall, callNew, callApply]
      cases lib.Apply (.sobel a b) img 0 <;> simp

/-- The shape of `runOil`. -/
theorem runOil_shape (lib : Lib F I) (args : List String) (img : I) :
    RunShape lib args img "oil" (runOil lib args img) := by
  cases h2 : atoi (flagArg args 2) with
  | none =>
    refine Or.inr (Or.inr ⟨?_, ?_⟩)
    · rintro ⟨e, hn, hp, hc⟩
      cases e <;> simp_all [Effect.name, Effect.parsedFrom, Effect.oilChecked]
    · simp [runOil, h2, bind, pure, Run.andThen, Run.ret, println, emit, osExit, libCalls,
        Event.isPrintln, Event.isLibCall, callNew, callApply]
  | some a =>
    by_cases h1 : a ≤ 3
    · refine Or.inr (Or.inr ⟨?_, ?_⟩)
      · rintro ⟨e, hn, hp, hc⟩
        cases e <;> simp_all [Effect.name, Effect.parsedFrom, Effect.oilChecked]
        all_goals omega
      · simp [runOil, h2, h1, bind, pure, Run.andThen, Run.ret, println, emit, osExit, libCalls,
          Event.isPrintln, Event.isLibCall, callNew, callApply]
    cases h3 : atoi (flagArg args 3) with
    | none =>
      refine Or.inr (Or.inr ⟨?_, ?_⟩)
      · rintro ⟨e, hn, hp, hc⟩
        cases e <;> simp_all [Effect.name, Effect.parsedFrom, Effect.oilChecked]
      · simp [runOil, h2, h3, h1, bind, pure, Run.andThen, Run.ret, println, emit, osExit, libCalls,
          Event.isPrintln, Event.isLibCall, callNew, callApply]
    | some b =>
      by_cases h4 : b < 1
      · refine Or.inr (Or.inr ⟨?_, ?_⟩)
        · rintro ⟨e, hn, hp, hc⟩
          cases e <;> simp_all [Effect.name, Effect.parsedFrom, Effect.oilChecked]
          all_goals omega
        · simp [runOil, h2, h3, h1, h4, bind, pure, Run.andThen, Run.ret, println, emit, osExit, libCalls,
            Event.isPrintln, Event.isLibCall, callNew, callApply]
      have key := applied_shape lib args img (.oil a b) ⟨h2, h3⟩ ⟨by omega, by omega⟩
      simp only [Effect.name] at key
      convert key using 1
      simp only [runOil, h2, h3, h1, h4, bind, pure, Run.andThen, Run.ret, println, emit, osExit, libCalls,
          Event.isPrintln, Event.isLibCall, callNew, callApply]
      cases lib.Apply (.oil a b) img 0 <;> simp

/-- The shape of `runCartoon`. -/
theorem runCartoon_shape (lib : Lib F I) (args : List String) (img : I) :
    RunShape lib args img "cartoon" (runCartoon lib args img) := by
  cases h2 : atoi (flagArg args 2) with
  | none =>
    refine Or.inr (Or.inr ⟨?_, ?_⟩)
    · rintro ⟨e, hn, hp, hc⟩
      cases e <;> simp_all [Effect.name, Effect.parsedFrom, Effect.oilChecked]
    · simp [runCartoon, h2, bind, pure, Run.andThen, Run.ret, println, emit, osExit, libCalls,
        Event.isPrintln, Event.isLibCall, callNew, callApply]
  | some a =>
    cases h3 : atoi (flagArg args 3) with
    | none =>
      refine Or.inr (Or.inr ⟨?_, ?_⟩)
      · rintro ⟨e, hn, hp, hc⟩
        cases e <;> simp_all [Effect.name, Effect.parsedFrom, Effect.oilChecked]
      · simp [runCartoon, h2, h3, bind, pure, Run.andThen, Run.ret, println, emit, osExit, libCalls,
          Event.isPrintln, Event.isLibCall, callNew, callApply]
    | some b =>
      cases h4 : atoi (flagArg args 4) with
      | none =>
        refine Or.inr (Or.inr ⟨?_, ?_⟩)
        · rintro ⟨e, hn, hp, hc⟩
          cases e <;> simp_all [Effect.name, Effect.parsedFrom, Effect.oilChecked]
        · simp [runCartoon, h2, h3, h4, bind, pure, Run.andThen, Run.ret, println, emit, osExit, libCalls,
            Event.isPrintln, Event.isLibCall, callNew, callApply]
      | some c =>
        cases h5 : atoi (flagArg args 5) with
        | none =>
          refine Or.inr (Or.inr ⟨?_, ?_⟩)
          · rintro ⟨e, hn, hp, hc⟩
            cases e <;> simp_all [Effect.name, Effect.parsedFrom, Effect.oilChecked]
          · simp [runCartoon, h2, h3, h4, h5, bind, pure, Run.andThen, Run.ret, println, emit, osExit, libCalls,
              Event.isPrintln, Event.isLibCall, callNew, callApply]
        | some d =>
          have key := applied_shape lib args img (.cartoon ⟨a, b, c, d, ""⟩) ⟨h2, h3, h4, h5, rfl⟩ trivial
          simp only [Effect.name] at key
          convert key using 1
          simp only [runCartoon, h2, h3, h4, h5, bind, pure, Run.andThen, Run.ret, println, emit, osExit, libCalls,
              Event.isPrintln, Event.isLibCall, callNew, callApply]
          cases lib.Apply (.cartoon ⟨a, b, c, d, ""⟩) img 0 <;> simp

/-- For each of the seven names `runEffect` has the shape of its run function. -/
theorem runEffect_shape (lib : Lib F I) (args : List String) (img : I) (effect : String)
    (n : Nat) (h : (effect, n) ∈ usageArgCounts) :
    RunShape lib args img effect (runEffect lib args img effect) := by
  simp only [usageArgCounts, List.mem_cons, Prod.mk.injEq, List.mem_singleton,
    List.not_mem_nil, or_false] at h
  rcases h with h | h | h | h | h | h | h <;> obtain ⟨rfl, -⟩ := h
  · simpa [runEffect] using runBrightness_shape lib args img
  · simpa [runEffect] using runCartoon_shape lib args img
  · simpa [runEffect] using runGaussian_shape lib args img
  · simpa [runEffect] using runOil_shape lib args img
  · simpa [runEffect] using runPencil_shape lib args img
  · simpa [runEffect] using runPixelate_shape lib args img
  · simpa [runEffect] using runSobel_shape lib args img

/-- How `main` is put together from `validateFlags`, `LoadImage`, `runEffect`
and `Save`. -/
theorem main_shape (lib : Lib F I) (effect : String) (args : List String) :
    ((effect, args.length) ∉ usageArgCounts ∧
      main lib effect args = validateFlags effect args) ∨
    ((effect, args.length) ∈ usageArgCounts ∧
      ∃ err, lib.LoadImage (flagArg args 0) = .error err ∧
        main lib effect args =
          ⟨[.loadImage (flagArg args 0), .println [.libError err]], .exited 1⟩) ∨
    ((effect, args.length) ∈ usageArgCounts ∧
      ∃ img, lib.LoadImage (flagArg args 0) = .ok img ∧
        main lib effect args =
          match (runEffect lib args img effect).result with
          | .exited status =>
            ⟨.loadImage (flagArg args 0) :: (runEffect lib args img effect).trace,
              .exited status⟩
          | .returned outImg =>
            match lib.Save outImg (flagArg args 1) ⟨true⟩ with
            | some err =>
              ⟨.loadImage (flagArg args 0) :: (runEffect lib args img effect).trace ++
                [.save outImg (flagArg args 1) ⟨true⟩,
                 .println [.text "Failed to save modified image:", .libError err]],
                .exited 1⟩
            | none =>
              ⟨.loadImage (flagArg args 0) :: (runEffect lib args img effect).trace ++
                [.save outImg (flagArg args 1) ⟨true⟩], .returned ()⟩) := by
  rcases validateFlags_cases (F := F) (I := I) effect args with ⟨hin, hv⟩ | ⟨hout, hr, -, -⟩
  · right
    cases hl : lib.LoadImage (flagArg args 0) with
    | error err =>
      left
      refine ⟨hin, err, rfl, ?_⟩
      simp [main, hv, hl, bind, pure, Run.andThen, Run.ret, println, emit, osExit,
        callLoadImage]
    | ok img =>
      right
      refine ⟨hin, img, rfl, ?_⟩
      simp only [main, hv, hl, bind, pure, Run.andThen, Run.ret, println, emit, osExit,
        callLoadImage, callSave]
      cases hres : (runEffect lib args img effect).result with
      | exited status => simp
      | returned outImg =>
        cases hs : lib.Save outImg (flagArg args 1) { ClipToBounds := true } <;> simp [hs]
  · left
    refine ⟨hout, ?_⟩
    simp only [main, bind, Run.andThen, hr]
    rw [← hr]

/-- The arguments determine the parsed effect of a given name. -/
theorem parsedFrom_unique (lib : Lib F I) (args : List String) (e e2 : Effect F)
    (hn : e.name = e2.name) (hp : e.parsedFrom lib args) (hp2 : e2.parsedFrom lib args) :
    e = e2 := by
  cases e <;> cases e2 <;> simp [Effect.name] at hn
  case cartoon.cartoon o1 o2 =>
    obtain ⟨a1, b1, c1, d1, p1⟩ := o1
    obtain ⟨a2, b2, c2, d2, p2⟩ := o2
    simp only [Effect.parsedFrom] at hp hp2
    obtain ⟨h1, h2, h3, h4, h5⟩ := hp
    obtain ⟨g1, g2, g3, g4, g5⟩ := hp2
    rw [h1] at g1; rw [h2] at g2; rw [h3] at g3; rw [h4] at g4
    simp only [Option.some.injEq] at g1 g2 g3 g4
    subst g1 g2 g3 g4 h5 g5
    rfl
  all_goals simp_all [Effect.parsedFrom]

/-- The flags pass validation exactly for the seven names with their counts. -/
theorem validateFlags_returned_iff (effect : String) (args : List String) :
    (validateFlags (F := F) (I := I) effect args).result = .returned () ↔
      (effect, args.length) ∈ usageArgCounts := by
  rcases validateFlags_cases (F := F) (I := I) effect args with ⟨hin, hv⟩ | ⟨hout, hr, -, -⟩
  · simp [hin, hv]
  · simp [hout, hr]

/-- A trace without calls into the `effects` package has no such event. -/
theorem no_libCalls (t : List (Event F I)) (h : libCalls t = []) (ev : Event F I)
    (hev : ev ∈ t) : ev.isLibCall = false := by
  unfold libCalls at h
  rw [List.filter_eq_nil_iff] at h
  simpa using h ev hev

/-- The three ways `main` can go: as far as `Save`; as far as a failing
`Apply`; or to an exit before any effect is constructed. -/
theorem main_outcome (lib : Lib F I) (effect : String) (args : List String) :
    (∃ img e out, lib.LoadImage (flagArg args 0) = .ok img ∧ e.name = effect ∧
        e.parsedFrom lib args ∧ e.oilChecked ∧ lib.Apply e img 0 = .ok out ∧
        reachesSave lib effect args ∧
        main lib effect args =
          match lib.Save out (flagArg args 1) ⟨true⟩ with
          | some err =>
            ⟨[.loadImage (flagArg args 0), .construct e, .apply e img 0,
              .save out (flagArg args 1) ⟨true⟩,
              .println [.text "Failed to save modified image:", .libError err]], .exited 1⟩
          | none =>
            ⟨[.loadImage (flagArg args 0), .construct e, .apply e img 0,
              .save out (flagArg args 1) ⟨true⟩], .returned ()⟩) ∨
    (∃ img e err, lib.LoadImage (flagArg args 0) = .ok img ∧ e.name = effect ∧
        e.parsedFrom lib args ∧ e.oilChecked ∧ lib.Apply e img 0 = .error err ∧
        ¬ reachesSave lib effect args ∧
        main lib effect args =
          ⟨[.loadImage (flagArg args 0), .construct e, .apply e img 0,
            .println [.text "Failed to apply effect:", .libError err]], .exited 1⟩) ∨
    (¬ reachesSave lib effect args ∧
        (main lib effect args).result = .exited 1 ∧
        (main lib effect args).trace.any Event.isPrintln = true ∧
        ∀ ev ∈ (main lib effect args).trace,
          ev.isConstruct = false ∧ ev.isApply = false ∧ ev.isSave = false) := by
  rcases main_shape lib effect args with ⟨hout, hm⟩ | ⟨hin, err, hl, hm⟩ | ⟨hin, img, hl, hm⟩
  · right; right
    rcases validateFlags_cases (F := F) (I := I) effect args with
      ⟨hin, -⟩ | ⟨-, hr, hp, hc⟩
    · exact absurd hin hout
    · rw [hm]
      refine ⟨fun h => ?_, hr, hp, fun ev hev => ?_⟩
      · rw [h.1] at hr; cases hr
      · have := no_libCalls _ hc ev hev
        cases ev <;> simp_all [Event.isLibCall, Event.isConstruct, Event.isApply, Event.isSave]
  · right; right
    rw [hm]
    refine ⟨fun h => ?_, rfl, by simp [Event.isPrintln], fun ev hev => ?_⟩
    · obtain ⟨-, img, e, out, hl2, -⟩ := h
      rw [hl] at hl2; cases hl2
    · simp only [List.mem_cons, List.mem_singleton, List.not_mem_nil, or_false] at hev
      rcases hev with rfl | rfl <;> simp [Event.isConstruct, Event.isApply, Event.isSave]
  · have hv := (validateFlags_returned_iff (F := F) (I := I) effect args).2 hin
    rcases runEffect_shape lib args img effect _ hin with
      ⟨e, out, hn, hp, hc, ha, hr⟩ | ⟨e, err, hn, hp, hc, ha, hr⟩ | ⟨hne, hr, hpr, hlc⟩
    · left
      refine ⟨img, e, out, hl, hn, hp, hc, ha, ⟨hv, img, e, out, hl, hn, hp, hc, ha⟩, ?_⟩
      rw [hm, hr]
      cases hs : lib.Save out (flagArg args 1) { ClipToBounds := true } <;> simp [hs]
    · right; left
      refine ⟨img, e, err, hl, hn, hp, hc, ha, ?_, ?_⟩
      · rintro ⟨-, img2, e2, out2, hl2, hn2, hp2, -, ha2⟩
        rw [hl] at hl2
        cases hl2
        have := parsedFrom_unique lib args e e2 (hn.trans hn2.symm) hp hp2
        subst this
        rw [ha] at ha2; cases ha2
      · rw [hm, hr]
    · right; right
      rw [hm, hr]
      refine ⟨?_, rfl, ?_, fun ev hev => ?_⟩
      · rintro ⟨-, img2, e2, out2, -, hn2, hp2, hc2, -⟩
        exact hne ⟨e2, hn2, hp2, hc2⟩
      · simp [hpr, Event.isPrintln]
      · simp only [List.mem_cons] at hev
        rcases hev with rfl | hev
        · simp [Event.isConstruct, Event.isApply, Event.isSave]
        · have := no_libCalls _ hlc ev hev
          cases ev <;> simp_all [Event.isLibCall, Event.isConstruct, Event.isApply, Event.isSave]

end Lemmas

/-! ## The claims -/

section Claims

variable {F I : Type}

/-- C1: in a run of the oil effect whose filterSize and levels arguments both
parse as integers, `runOil` reaches the constructor `NewOilPainting` and
`Apply` if and only if filterSize > 3 and levels >= 1, and then it calls
exactly these two, on the parsed values and the given image; when
filterSize <= 3 or levels < 1 it exits with status 1 and neither constructs
nor applies an effect. -/
theorem runOil_reaches_apply_iff (lib : Lib F I) (args : List String) (img : I)
    (filterSize levels : Int)
    (hf : atoi (flagArg args 2) = some filterSize)
    (hl : atoi (flagArg args 3) = some levels) :
    (((runOil lib args img).trace.any Event.isConstruct = true ∧
        (runOil lib args img).trace.any Event.isApply = true) ↔
      (3 < filterSize ∧ 1 ≤ levels)) ∧
    (3 < filterSize ∧ 1 ≤ levels →
      libCalls (runOil lib args img).trace =
        [.construct (.oil filterSize levels), .apply (.oil filterSize levels) img 0]) ∧
    (filterSize ≤ 3 ∨ levels < 1 →
      (runOil lib args img).result = .exited 1 ∧
      (runOil lib args img).trace.any Event.isConstruct = false ∧
      (runOil lib args img).trace.any Event.isApply = false) := by
  simp only [runOil, hf, hl, bind, pure, Run.andThen, Run.ret, println, emit, osExit, callNew,
    callApply]
  by_cases h1 : filterSize ≤ 3
  · simp [h1, libCalls, Event.isLibCall, Event.isConstruct, Event.isApply]
  · by_cases h2 : levels < 1
    · simp [h1, h2, libCalls, Event.isLibCall, Event.isConstruct, Event.isApply]
    · simp only [h1, h2, if_false]
      cases lib.Apply (.oil filterSize levels) img 0 <;>
        simp [libCalls, Event.isLibCall, Event.isConstruct, Event.isApply] <;> omega

/-- C1, at a concrete input: filter size 5 and 30 levels reach both calls. -/
theorem runOil_reaches_apply_iff_witness :
    atoi (flagArg ["a.jpg", "b.jpg", "5", "30"] 2) = some 5 ∧
    atoi (flagArg ["a.jpg", "b.jpg", "5", "30"] 3) = some 30 ∧
    libCalls (runOil sampleLib ["a.jpg", "b.jpg", "5", "30"] 5).trace =
      [.construct (.oil 5 30), .apply (.oil 5 30) 5 0] :=
  ⟨by decide, by decide,
    (runOil_reaches_apply_iff sampleLib ["a.jpg", "b.jpg", "5", "30"] 5 5 30
      (by decide) (by decide)).2.1 (by decide)⟩

/-- C5: `validateFlags` returns without exiting if and only if the effect
name is one of brightness, cartoon, gaussian, oil, pencil, pixelate, sobel and
the number of positional arguments is the count its usage message states
(3, 6, 4, 4, 3, 3, 4); in every other case, the empty name included, it exits
with status 1. -/
theorem validateFlags_returns_iff (effect : String) (args : List String) :
    ((validateFlags (F := F) (I := I) effect args).result = .returned () ↔
      (effect, args.length) ∈ usageArgCounts) ∧
    ((effect, args.length) ∉ usageArgCounts →
      (validateFlags (F := F) (I := I) effect args).result = .exited 1) ∧
    (∀ p ∈ usageArgCounts,
      (firstLine (validateFlags (F := F) (I := I) p.1 []).trace).bind statedArgCount =
        some p.2) := by
  refine ⟨?_, ?_, ?_⟩
  · exact validateFlags_returned_iff effect args
  · intro hout
    rcases validateFlags_cases (F := F) (I := I) effect args with ⟨hin, -⟩ | ⟨-, hr, -, -⟩
    · exact absurd hin hout
    · exact hr
  · intro p hp
    simp only [usageArgCounts, List.mem_cons, List.mem_singleton, List.not_mem_nil,
      or_false] at hp
    rcases hp with rfl | rfl | rfl | rfl | rfl | rfl | rfl <;> rfl

/-- C8: in a cartoon run whose four parameters parse as integers, `runCartoon`
builds `CTOpts` with BlurKernelSize from positional argument 2, EdgeThreshold
from argument 3, OilFilterSize from argument 4, OilLevels from argument 5 and
an empty DebugPath, hands exactly that struct to `NewCartoon`, and applies the
resulting effect to the image.  This is the order in which the cartoon usage
message names the arguments: blurStrength, edgeThreshold, oilBoldness,
oilLevels, after the two paths. -/
theorem runCartoon_builds_opts (lib : Lib F I) (args : List String) (img : I)
    (blurStrength edgeThreshold oilFilterSize oilLevels : Int)
    (h2 : atoi (flagArg args 2) = some blurStrength)
    (h3 : atoi (flagArg args 3) = some edgeThreshold)
    (h4 : atoi (flagArg args 4) = some oilFilterSize)
    (h5 : atoi (flagArg args 5) = some oilLevels) :
    libCalls (runCartoon lib args img).trace =
      [.construct (.cartoon
          { BlurKernelSize := blurStrength, EdgeThreshold := edgeThreshold,
            OilFilterSize := oilFilterSize, OilLevels := oilLevels, DebugPath := "" }),
       .apply (.cartoon
          { BlurKernelSize := blurStrength, EdgeThreshold := edgeThreshold,
            OilFilterSize := oilFilterSize, OilLevels := oilLevels, DebugPath := "" }) img 0] ∧
    (firstLine (validateFlags (F := F) (I := I) "cartoon" []).trace).map usageArgNames =
      some ["input path", "output path", "blurStrength", "edgeThreshold", "oilBoldness",
        "oilLevels"] := by
  refine ⟨?_, by rfl⟩
  simp only [runCartoon, h2, h3, h4, h5, bind, pure, Run.andThen, Run.ret, println, emit,
    osExit, callNew, callApply]
  cases lib.Apply (.cartoon ⟨blurStrength, edgeThreshold, oilFilterSize, oilLevels, ""⟩) img 0 <;>
    simp [libCalls, Event.isLibCall]

/-- C8, at the arguments of the cartoon usage message. -/
theorem runCartoon_builds_opts_witness :
    atoi (flagArg ["a.jpg", "b.jpg", "21", "40", "15", "16"] 2) = some 21 ∧
    atoi (flagArg ["a.jpg", "b.jpg", "21", "40", "15", "16"] 3) = some 40 ∧
    atoi (flagArg ["a.jpg", "b.jpg", "21", "40", "15", "16"] 4) = some 15 ∧
    atoi (flagArg ["a.jpg", "b.jpg", "21", "40", "15", "16"] 5) = some 16 ∧
    libCalls (runCartoon sampleLib ["a.jpg", "b.jpg", "21", "40", "15", "16"] 5).trace =
      [.construct (.cartoon ⟨21, 40, 15, 16, ""⟩),
       .apply (.cartoon ⟨21, 40, 15, 16, ""⟩) 5 0] :=
  ⟨by decide, by decide, by decide, by decide,
    (runCartoon_builds_opts sampleLib ["a.jpg", "b.jpg", "21", "40", "15", "16"] 5 21 40 15 16
      (by decide) (by decide) (by decide) (by decide)).1⟩

/-- The body of `main` after `flag.Parse()`: `Save` is called exactly when flag
validation passed, `LoadImage` returned no error, every parameter of the
selected effect parsed (and passed the checks of `runOil`) and `Apply` returned
no error; in every other case a message is printed and the process exits with
status 1 without calling `Save`; a `Save` that returns an error also ends in
exit status 1. -/
theorem save_only_after_success (lib : Lib F I) (effect : String) (args : List String) :
    ((main lib effect args).trace.any Event.isSave = true ↔ reachesSave lib effect args) ∧
    (¬ reachesSave lib effect args →
      (main lib effect args).result = .exited 1 ∧
      (main lib effect args).trace.any Event.isPrintln = true ∧
      (main lib effect args).trace.any Event.isSave = false) ∧
    (∀ img path opts err, Event.save img path opts ∈ (main lib effect args).trace →
      lib.Save img path opts = some err →
      (main lib effect args).result = .exited 1 ∧
      (main lib effect args).trace.any Event.isPrintln = true) := by
  rcases main_outcome lib effect args with
    ⟨img, e, out, -, -, -, -, -, hreach, hm⟩ | ⟨img, e, err, -, -, -, -, -, hnot, hm⟩ |
    ⟨hnot, hr, hp, hno⟩
  · rw [hm]
    cases hs : lib.Save out (flagArg args 1) { ClipToBounds := true } with
    | none =>
      refine ⟨by simp [hreach, Event.isSave], fun h => absurd hreach h, ?_⟩
      intro img2 path opts err2 hmem hsave
      simp only [List.mem_cons, List.mem_singleton, List.not_mem_nil, or_false,
        reduceCtorEq, false_or, Event.save.injEq] at hmem
      obtain ⟨rfl, rfl, rfl⟩ := hmem
      rw [hs] at hsave
      cases hsave
    | some err =>
      refine ⟨by simp [hreach, Event.isSave], fun h => absurd hreach h, ?_⟩
      intro _ _ _ _ _ _
      simp [Event.isPrintln]
  · rw [hm]
    refine ⟨by simp [hnot, Event.isSave], fun _ => by simp [Event.isSave, Event.isPrintln], ?_⟩
    intro _ _ _ _ _ _
    simp [Event.isPrintln]
  · have hsave : (main lib effect args).trace.any Event.isSave = false := by
      rw [List.any_eq_false]
      intro ev hev
      simp [(hno ev hev).2.2]
    refine ⟨by simp [hnot, hsave], fun _ => ⟨hr, hp, hsave⟩, ?_⟩
    intro _ _ _ _ _ _
    exact ⟨hr, hp⟩

/-- C4: when `main` returns normally, the calls it made into the `effects`
package are exactly: `LoadImage` on positional argument 0; the constructor of
the effect named by `-effect`, with parameters parsed from the arguments; one
`Apply` of that effect to the loaded image on channel 0; and one `Save` of the
image that `Apply` returned, to the path in positional argument 1 with
`ClipToBounds` set. -/
theorem main_success_calls (lib : Lib F I) (effect : String) (args : List String)
    (h : (main lib effect args).result = .returned ()) :
    ∃ inPath outPath params img e out,
      args = inPath :: outPath :: params ∧
      lib.LoadImage inPath = .ok img ∧
      e.name = effect ∧ e.parsedFrom lib args ∧
      lib.Apply e img 0 = .ok out ∧
      lib.Save out outPath { ClipToBounds := true } = none ∧
      libCalls (main lib effect args).trace =
        [.loadImage inPath, .construct e, .apply e img 0,
         .save out outPath { ClipToBounds := true }] := by
  rcases main_outcome lib effect args with
    ⟨img, e, out, hl, hn, hp, -, ha, hreach, hm⟩ | ⟨img, e, err, -, -, -, -, -, -, hm⟩ |
    ⟨-, hr, -, -⟩
  · have hlen : 2 ≤ args.length := by
      have hin := (validateFlags_returned_iff (F := F) (I := I) effect args).1 hreach.1
      simp only [usageArgCounts, List.mem_cons, Prod.mk.injEq, List.mem_singleton,
        List.not_mem_nil, or_false] at hin
      omega
    obtain ⟨inPath, outPath, params, rfl⟩ : ∃ a b c, args = a :: b :: c := by
      match args, hlen with
      | a :: b :: c, _ => exact ⟨a, b, c, rfl⟩
    simp only [flagArg, List.getD_cons_zero, List.getD_cons_succ] at hl hm
    cases hs : lib.Save out outPath { ClipToBounds := true } with
    | some err =>
      rw [hm, hs] at h
      cases h
    | none =>
      refine ⟨inPath, outPath, params, img, e, out, rfl, hl, hn, hp, ha, hs, ?_⟩
      rw [hm, hs]
      simp [libCalls, Event.isLibCall]
  · rw [hm] at h
    cases h
  · rw [hr] at h
    cases h

/-- C4, at a concrete input: a pixelate run with block size 12. -/
theorem main_success_calls_witness :
    (main sampleLib "pixelate" ["a.jpg", "b.jpg", "12"]).result = .returned () ∧
    ∃ inPath outPath params img e out,
      ["a.jpg", "b.jpg", "12"] = inPath :: outPath :: params ∧
      sampleLib.LoadImage inPath = .ok img ∧
      e.name = "pixelate" ∧ e.parsedFrom sampleLib ["a.jpg", "b.jpg", "12"] ∧
      sampleLib.Apply e img 0 = .ok out ∧
      sampleLib.Save out outPath { ClipToBounds := true } = none ∧
      libCalls (main sampleLib "pixelate" ["a.jpg", "b.jpg", "12"]).trace =
        [.loadImage inPath, .construct e, .apply e img 0,
         .save out outPath { ClipToBounds := true }] :=
  ⟨by decide, main_success_calls sampleLib "pixelate" ["a.jpg", "b.jpg", "12"] (by decide)⟩

/-- Whenever `main` calls `Apply`, it is on channel 0 of the loaded image and
on the effect named by `-effect`, constructed immediately before from
parameters that all parsed from the positional arguments; and if that effect
is the oil effect, its filter size is above 3 and its levels are at least 1. -/
theorem apply_only_after_checks (lib : Lib F I) (effect : String) (args : List String)
    (e : Effect F) (img : I) (channel : Int)
    (h : Event.apply e img channel ∈ (main lib effect args).trace) :
    channel = 0 ∧ lib.LoadImage (flagArg args 0) = .ok img ∧
    e.name = effect ∧ e.parsedFrom lib args ∧
    (∀ filterSize levels, e = .oil filterSize levels → 3 < filterSize ∧ 1 ≤ levels) ∧
    ∃ rest, (main lib effect args).trace =
      .loadImage (flagArg args 0) :: .construct e :: .apply e img 0 :: rest := by
  have oil : ∀ e2 : Effect F, e2.oilChecked →
      ∀ filterSize levels, e2 = .oil filterSize levels → 3 < filterSize ∧ 1 ≤ levels := by
    intro e2 hc f l he
    subst he
    exact hc
  rcases main_outcome lib effect args with
    ⟨img2, e2, out, hl, hn, hp, hc, -, -, hm⟩ | ⟨img2, e2, err, hl, hn, hp, hc, -, -, hm⟩ |
    ⟨-, -, -, hno⟩
  · cases hs : lib.Save out (flagArg args 1) { ClipToBounds := true } <;>
      rw [hm, hs] at h ⊢ <;>
      simp only [List.mem_cons, List.mem_singleton, List.not_mem_nil, or_false,
        reduceCtorEq, false_or, Event.apply.injEq] at h <;>
      obtain ⟨rfl, rfl, rfl⟩ := h <;>
      exact ⟨rfl, hl, hn, hp, oil _ hc, _, rfl⟩
  · rw [hm] at h ⊢
    simp only [List.mem_cons, List.mem_singleton, List.not_mem_nil, or_false,
      reduceCtorEq, false_or, Event.apply.injEq] at h
    obtain ⟨rfl, rfl, rfl⟩ := h
    exact ⟨rfl, hl, hn, hp, oil _ hc, _, rfl⟩
  · have := (hno _ h).2.1
    simp [Event.isApply] at this

/-- C2: `Apply` is reached without any range check in `runGaussian`,
`runSobel`, `runPixelate` and `runCartoon`: whatever values the arguments
parse to, the effect is constructed from them and applied.  `runOil` alone
checks: with filter size <= 3 or levels < 1 it never calls `Apply`, while
`runCartoon` hands the same two oil parameters on unchecked.  So `Apply` is
called on a cartoon effect with oil filter size 3 and 0 oil levels, on a
pixelate effect with block size 0, on a gaussian effect with kernel size -3 and
sigma -1, and on a sobel effect with threshold -1. -/
theorem unchecked_parameters_reach_apply (lib : Lib F I) (img : I) :
    (∀ args kernelSize sigma,
      atoi (flagArg args 2) = some kernelSize →
      lib.parseFloat (flagArg args 3) = some sigma →
      libCalls (runGaussian lib args img).trace =
        [.construct (.gaussian kernelSize sigma), .apply (.gaussian kernelSize sigma) img 0]) ∧
    (∀ args threshold invert,
      atoi (flagArg args 2) = some threshold →
      parseBool (flagArg args 3) = some invert →
      libCalls (runSobel lib args img).trace =
        [.construct (.sobel threshold invert), .apply (.sobel threshold invert) img 0]) ∧
    (∀ args blockSize,
      atoi (flagArg args 2) = some blockSize →
      libCalls (runPixelate lib args img).trace =
        [.construct (.pixelate blockSize), .apply (.pixelate blockSize) img 0]) ∧
    (∀ args blurStrength edgeThreshold oilFilterSize oilLevels,
      atoi (flagArg args 2) = some blurStrength →
      atoi (flagArg args 3) = some edgeThreshold →
      atoi (flagArg args 4) = some oilFilterSize →
      atoi (flagArg args 5) = some oilLevels →
      Event.apply
          (.cartoon ⟨blurStrength, edgeThreshold, oilFilterSize, oilLevels, ""⟩) img 0 ∈
        (runCartoon lib args img).trace) ∧
    (∀ args filterSize levels,
      atoi (flagArg args 2) = some filterSize →
      atoi (flagArg args 3) = some levels →
      filterSize ≤ 3 ∨ levels < 1 →
      (runOil lib args img).result = .exited 1 ∧
      (runOil lib args img).trace.any Event.isApply = false) ∧
    (Event.apply (.cartoon ⟨0, -1, 3, 0, ""⟩) 5 0 ∈
        (main sampleLib "cartoon" ["a.jpg", "b.jpg", "0", "-1", "3", "0"]).trace ∧
      (main sampleLib "oil" ["a.jpg", "b.jpg", "3", "0"]).trace.any Event.isApply = false ∧
      Event.apply (.pixelate 0) 5 0 ∈
        (main sampleLib "pixelate" ["a.jpg", "b.jpg", "0"]).trace ∧
      Event.apply (.gaussian (-3) (-1)) 5 0 ∈
        (main sampleLib "gaussian" ["a.jpg", "b.jpg", "-3", "-1"]).trace ∧
      Event.apply (.sobel (-1) false) 5 0 ∈
        (main sampleLib "sobel" ["a.jpg", "b.jpg", "-1", "false"]).trace) := by
  refine ⟨?_, ?_, ?_, ?_, ?_, by decide⟩
  · intro args kernelSize sigma h2 h3
    simp only [runGaussian, h2, h3, bind, pure, Run.andThen, Run.ret, println, emit, osExit,
      callNew, callApply]
    cases lib.Apply (.gaussian kernelSize sigma) img 0 <;> simp [libCalls, Event.isLibCall]
  · intro args threshold invert h2 h3
    simp only [runSobel, h2, h3, bind, pure, Run.andThen, Run.ret, println, emit, osExit,
      callNew, callApply]
    cases lib.Apply (.sobel threshold invert) img 0 <;> simp [libCalls, Event.isLibCall]
  · intro args blockSize h2
    simp only [runPixelate, h2, bind, pure, Run.andThen, Run.ret, println, emit, osExit,
      callNew, callApply]
    cases lib.Apply (.pixelate blockSize) img 0 <;> simp [libCalls, Event.isLibCall]
  · intro args blurStrength edgeThreshold oilFilterSize oilLevels h2 h3 h4 h5
    simp only [runCartoon, h2, h3, h4, h5, bind, pure, Run.andThen, Run.ret, println, emit,
      osExit, callNew, callApply]
    cases lib.Apply (.cartoon ⟨blurStrength, edgeThreshold, oilFilterSize, oilLevels, ""⟩)
      img 0 <;> simp
  · intro args filterSize levels h2 h3 hbad
    simp only [runOil, h2, h3, bind, pure, Run.andThen, Run.ret, println, emit, osExit,
      callNew, callApply]
    by_cases h1 : filterSize ≤ 3
    · simp [h1, Event.isApply]
    · have h4 : levels < 1 := by omega
      simp [h1, h4, Event.isApply]

/-- C3, as stated, fails: an undefined flag and `-effect` without a value
end the program with exit status 2, and `-h` with exit status 0; none of these
runs calls `Save`, and none exits with status 1. -/
theorem flag_errors_exit_with_other_status :
    goeffects sampleLib ["-bogus", "a.jpg", "b.jpg", "5", "30"] =
      ⟨[.flagError "flag provided but not defined: -bogus", .flagUsage], .exited 2⟩ ∧
    goeffects sampleLib ["-effect"] =
      ⟨[.flagError "flag needs an argument: -effect", .flagUsage], .exited 2⟩ ∧
    goeffects sampleLib ["-h"] = ⟨[.flagUsage], .exited 0⟩ := by
  decide

/-- C3, amended: for every command line, `Save` is called exactly when
`flag.Parse()` accepts the command line, flag validation passes, `LoadImage`
returns no error, every parameter of the selected effect parses (and passes
the checks of `runOil`) and `Apply` returns no error.  When `flag.Parse()`
accepts the command line, every other case (bad argument count or effect name,
load error, unparsable parameter, `Apply` error) prints a message and exits
with status 1 without calling `Save`, and a `Save` error also exits with
status 1.  When `flag.Parse()` rejects the command line the program exits with
status 2, and on a request for help with status 0, in both cases without
calling `Save`. -/
theorem goeffects_save_only_after_success (lib : Lib F I) (argv : List String) :
    ((goeffects lib argv).trace.any Event.isSave = true ↔
      ∃ effect args, flagParse argv "" = .parsed effect args ∧ reachesSave lib effect args) ∧
    (∀ effect args, flagParse argv "" = .parsed effect args → ¬ reachesSave lib effect args →
      (goeffects lib argv).result = .exited 1 ∧
      (goeffects lib argv).trace.any Event.isPrintln = true ∧
      (goeffects lib argv).trace.any Event.isSave = false) ∧
    (∀ msg, flagParse argv "" = .failed msg →
      (goeffects lib argv).result = .exited 2 ∧
      Event.flagError msg ∈ (goeffects lib argv).trace ∧
      (goeffects lib argv).trace.any Event.isSave = false) ∧
    (flagParse argv "" = .help →
      (goeffects lib argv).result = .exited 0 ∧
      (goeffects lib argv).trace.any Event.isSave = false) ∧
    (∀ img path opts err, Event.save img path opts ∈ (goeffects lib argv).trace →
      lib.Save img path opts = some err →
      (goeffects lib argv).result = .exited 1 ∧
      (goeffects lib argv).trace.any Event.isPrintln = true) := by
  cases hp : flagParse argv "" with
  | parsed effect args =>
    have hg : goeffects lib argv = main lib effect args := by simp [goeffects, hp]
    obtain ⟨h1, h2, h3⟩ := save_only_after_success lib effect args
    rw [hg]
    refine ⟨?_, ?_, ?_, ?_, h3⟩
    · rw [h1]
      constructor
      · intro h
        exact ⟨effect, args, rfl, h⟩
      · rintro ⟨effect2, args2, heq, h⟩
        cases heq
        exact h
    · intro effect2 args2 heq hnot
      cases heq
      exact h2 hnot
    · intro msg heq
      cases heq
    · intro heq
      cases heq
  | help =>
    have hg : goeffects lib argv = ⟨[.flagUsage], .exited 0⟩ := by simp [goeffects, hp]
    rw [hg]
    simp [Event.isSave]
  | failed msg =>
    have hg : goeffects lib argv = ⟨[.flagError msg, .flagUsage], .exited 2⟩ := by
      simp [goeffects, hp]
    rw [hg]
    simp [Event.isSave]

/-- C6, the pencil case: the sample command line that `validateFlags` prints
for the pencil effect has two positional arguments, while `validateFlags`
requires three for that effect; run as printed, the program stops in
`validateFlags` with exit status 1, before any image is loaded. -/
theorem pencil_sample_usage_rejected :
    Event.println
        [.text "Sample usage: goeffects -effect=pencil mypic.jpg mypic-pencil.jpg"] ∈
      (validateFlags (F := Int) (I := Nat) "pencil" []).trace ∧
    sampleInvocation "Sample usage: goeffects -effect=pencil mypic.jpg mypic-pencil.jpg" =
      some ("pencil", ["mypic.jpg", "mypic-pencil.jpg"]) ∧
    (validateFlags (F := Int) (I := Nat) "pencil" ["mypic.jpg", "mypic-pencil.jpg"]).result =
      .exited 1 ∧
    main sampleLib "pencil" ["mypic.jpg", "mypic-pencil.jpg"] =
      ⟨[.println [.text "The pencil effect requires 3 args, input path, output path blurFactor"],
        .println [.text "Sample usage: goeffects -effect=pencil mypic.jpg mypic-pencil.jpg"],
        .printDefaults], .exited 1⟩ := by
  decide

/-- The sample command lines printed for the other six effects are accepted:
each passes `validateFlags`, every parameter parses and passes the checks of
its run function, and the run gets as far as `Save` and returns. -/
theorem other_sample_usages_accepted :
    (sampleInvocation "Sample usage: goeffects -effect=brightness mypic.jpg mypic-lighten.jpg 200" =
        some ("brightness", ["mypic.jpg", "mypic-lighten.jpg", "200"]) ∧
      (main sampleLib "brightness" ["mypic.jpg", "mypic-lighten.jpg", "200"]).result =
        .returned ()) ∧
    (sampleInvocation "Sample usage: goeffects -effect=cartoon mypic.jpg mypic-cartoon.jpg 21 40 15 15" =
        some ("cartoon", ["mypic.jpg", "mypic-cartoon.jpg", "21", "40", "15", "15"]) ∧
      (main sampleLib "cartoon" ["mypic.jpg", "mypic-cartoon.jpg", "21", "40", "15", "15"]).result =
        .returned ()) ∧
    (sampleInvocation "Sample usage: goeffects -effect=gaussian mypic.jpg mypic-gaussian.jpg 9 1" =
        some ("gaussian", ["mypic.jpg", "mypic-gaussian.jpg", "9", "1"]) ∧
      (main sampleLib "gaussian" ["mypic.jpg", "mypic-gaussian.jpg", "9", "1"]).result =
        .returned ()) ∧
    (sampleInvocation "Sample usage: goeffects -effect=oil mypic.jpg mypic-oil.jpg 5 30" =
        some ("oil", ["mypic.jpg", "mypic-oil.jpg", "5", "30"]) ∧
      (main sampleLib "oil" ["mypic.jpg", "mypic-oil.jpg", "5", "30"]).result =
        .returned ()) ∧
    (sampleInvocation "Sample usage: goeffects -effect=pixelate mypic.jpg mypic-pixelate.jpg 12" =
        some ("pixelate", ["mypic.jpg", "mypic-pixelate.jpg", "12"]) ∧
      (main sampleLib "pixelate" ["mypic.jpg", "mypic-pixelate.jpg", "12"]).result =
        .returned ()) ∧
    (sampleInvocation "Sample usage: goeffects -effect=sobel mypic.jpg mypic-sobel.jpg 100 false" =
        some ("sobel", ["mypic.jpg", "mypic-sobel.jpg", "100", "false"]) ∧
      (main sampleLib "sobel" ["mypic.jpg", "mypic-sobel.jpg", "100", "false"]).result =
        .returned ()) := by
  decide

/-- C7, at the names brightness and pencil: the usage text of the `-effect`
flag lists oil, sobel, gaussian, cartoon and pixelate only, yet
`validateFlags` lets brightness and pencil through with three positional
arguments and `runEffect` dispatches them to `runBrightness` and `runPencil`.
Every name the usage text does list is accepted. -/
theorem unlisted_effects_accepted :
    listedValues effectFlagUsage = ["oil", "sobel", "gaussian", "cartoon", "pixelate"] ∧
    "brightness" ∉ listedValues effectFlagUsage ∧
    "pencil" ∉ listedValues effectFlagUsage ∧
    (validateFlags (F := Int) (I := Nat) "brightness" ["in.jpg", "out.jpg", "200"]).result =
      .returned () ∧
    (validateFlags (F := Int) (I := Nat) "pencil" ["in.jpg", "out.jpg", "3"]).result =
      .returned () ∧
    runEffect sampleLib ["in.jpg", "out.jpg", "200"] 6 "brightness" =
      ⟨[.construct (.brightness 200), .apply (.brightness 200) 6 0], .returned 7⟩ ∧
    runEffect sampleLib ["in.jpg", "out.jpg", "3"] 6 "pencil" =
      ⟨[.construct (.pencil 3), .apply (.pencil 3) 6 0], .returned 7⟩ ∧
    (∀ name ∈ listedValues effectFlagUsage, name ∈ usageArgCounts.map Prod.fst) := by
  decide

end Claims
end GoEffects
